import Mathlib

/-!
Verification of the stock-predictor client core against its specification.

Numbers are modelled over the rationals, records over Lean structures, and
the JavaScript object used as a symbol-to-prediction map over an association
list in which the most recent binding for a key shadows the older ones
(matching the lookup semantics of a spread update).
-/

/-- Per-symbol prediction as held by the presentation layer (App.tsx and
StockCard.tsx interface Prediction).  The direction is kept as a string,
matching the runtime value behind the TypeScript union type. -/
structure Prediction where
  prediction : String
  confidence : ℚ
  accuracy : ℚ
deriving DecidableEq

/-- Payload of the predictions-for-all-symbols endpoint (App.tsx interface
PredictionData). -/
structure PredictionData where
  predictions : List (String × Prediction)
  last_updated : String
  prediction_date : String
deriving DecidableEq

/-- Payload of the add-stock endpoint as consumed by the client
(interface NewStockData in App.tsx and AddStockModal.tsx). -/
structure NewStockData where
  symbol : String
  name : String
  currentPrice : ℚ
  prediction : ℚ
  confidence : ℚ
  direction : String
deriving DecidableEq

/-- The default stock universe hard-coded in App.tsx. -/
def defaultStocks : List String := ["AAPL", "MSFT", "NVDA", "GOOGL", "AMZN"]

/-- The slice of App component state that add-stock handling touches. -/
structure AppState where
  customStocks : List String
  predictions : Option PredictionData
deriving DecidableEq

/-- The combined symbol list rendered by App.tsx
(allStocks = [...defaultStocks, ...customStocks]). -/
def allStocks (st : AppState) : List String :=
  defaultStocks ++ st.customStocks

/-- Update of the symbol-to-prediction record: the JS spread
writes the new binding so that it shadows any older one. -/
def recordSet (m : List (String × Prediction)) (k : String) (v : Prediction) :
    List (String × Prediction) :=
  (k, v) :: m

/-- Lookup in the symbol-to-prediction record. -/
def recordGet (m : List (String × Prediction)) (k : String) : Option Prediction :=
  (m.find? (fun e => e.1 == k)).map (fun e => e.2)

/-- handleAddStock from App.tsx.  The call to Math.random() is made explicit
as the parameter r.  If the symbol is already among the custom stocks the
handler does nothing; otherwise it appends the symbol and, when prediction
data has been loaded, stores a new Prediction whose confidence is the
response confidence divided by 100 and whose accuracy is r * 0.3 + 0.7. -/
def handleAddStock (st : AppState) (d : NewStockData) (r : ℚ) : AppState :=
  if st.customStocks.contains d.symbol then st
  else
    let newCustom := st.customStocks ++ [d.symbol]
    match st.predictions with
    | none => { st with customStocks := newCustom }
    | some pd =>
      let newPrediction : Prediction :=
        { prediction := d.direction
          confidence := d.confidence / 100
          accuracy := r * (3 / 10) + 7 / 10 }
      { customStocks := newCustom
        predictions := some { pd with
          predictions := recordSet pd.predictions d.symbol newPrediction } }

/-- The prediction stored for the added symbol by handleAddStock, if any. -/
def newPredictionOf (st : AppState) (d : NewStockData) (r : ℚ) : Option Prediction :=
  match (handleAddStock st d r).predictions with
  | none => none
  | some pd => recordGet pd.predictions d.symbol

/-- Range invariant of a single published Prediction, as the spec states it. -/
def predInRange (p : Prediction) : Prop :=
  0 ≤ p.confidence ∧ p.confidence ≤ 1 ∧ 0 ≤ p.accuracy ∧ p.accuracy ≤ 1

/-- Range invariant over every prediction held in the App state. -/
def stateInRange (st : AppState) : Prop :=
  ∀ pd, st.predictions = some pd →
    ∀ s p, (s, p) ∈ pd.predictions → predInRange p

/-- Backend response space of the add-stock endpoint as the client
distinguishes it: a success payload, an HTTP 404, or another failure
(with or without a server-supplied error message). -/
inductive AddStockApiResult where
  | ok (payload : NewStockData)
  | httpNotFound
  | httpError (msg : Option String)
deriving DecidableEq

/-- Outcome of submitting the add-stock form. -/
inductive SubmitOutcome where
  | added (d : NewStockData)
  | rejected (errMsg : String)
deriving DecidableEq

/-- JavaScript String.prototype.trim: strip whitespace from both ends. -/
def jsTrim (s : String) : String :=
  String.mk (((s.data.dropWhile Char.isWhitespace).reverse.dropWhile
    Char.isWhitespace).reverse)

/-- handleSubmit from AddStockModal.tsx.  An all-whitespace symbol is
rejected locally; otherwise the upper-cased symbol is posted and the
response is mapped to the six-field NewStockData record on success, to the
not-found message on a 404, and to the generic or server message on any
other failure. -/
def handleSubmit (stockSymbol : String) (api : String → AddStockApiResult) :
    SubmitOutcome :=
  if jsTrim stockSymbol = "" then .rejected "Please enter a stock symbol"
  else
    match api stockSymbol.toUpper with
    | .ok p =>
        .added { symbol := p.symbol, name := p.name, currentPrice := p.currentPrice
                 prediction := p.prediction, confidence := p.confidence
                 direction := p.direction }
    | .httpNotFound =>
        .rejected "Stock symbol not found. Please check the symbol and try again."
    | .httpError (some m) => .rejected m
    | .httpError none => .rejected "Failed to add stock. Please try again."

/-- The modal wired to the App handler (onAddStock = handleAddStock):
a successful submission feeds the payload into handleAddStock, a rejected
one leaves the state untouched and surfaces the error message. -/
def submitAndAdd (st : AppState) (stockSymbol : String)
    (api : String → AddStockApiResult) (r : ℚ) : AppState × Option String :=
  match handleSubmit stockSymbol api with
  | .added d => (handleAddStock st d r, none)
  | .rejected m => (st, some m)

/-- What getPredictionIcon in StockCard.tsx renders. -/
inductive PredictionIcon where
  | trendingUpIcon
  | trendingDownIcon
  | questionMark
deriving DecidableEq

/-- getPredictionIcon from StockCard.tsx: question mark when no prediction,
trending icons for UP and DOWN, and the question mark again in the default
switch branch (which receives ERROR and any other runtime string). -/
def getPredictionIcon (p : Option Prediction) : PredictionIcon :=
  match p with
  | none => .questionMark
  | some pr =>
    if pr.prediction = "UP" then .trendingUpIcon
    else if pr.prediction = "DOWN" then .trendingDownIcon
    else .questionMark

/-- One intraday chart point (interface StockData in StockCard.tsx). -/
structure StockData where
  timestamp : ℤ
  price : ℚ
deriving DecidableEq

/-- Math.min over a non-empty argument list, seeded with its head. -/
def minOfPrices (q : ℚ) (qs : List ℚ) : ℚ := qs.foldl min q

/-- Math.max over a non-empty argument list, seeded with its head. -/
def maxOfPrices (q : ℚ) (qs : List ℚ) : ℚ := qs.foldl max q

/-- getChartDomain from StockCard.tsx: [0, 0] for an empty series, and
otherwise [min - padding, max + padding] with padding = (max - min) * 0.1. -/
def getChartDomain (stockData : List StockData) : ℚ × ℚ :=
  match stockData.map (fun d => d.price) with
  | [] => (0, 0)
  | q :: qs =>
    let mn := minOfPrices q qs
    let mx := maxOfPrices q qs
    let padding := (mx - mn) * (1 / 10)
    (mn - padding, mx + padding)

/-- Modelled from the spec: the TrainingScheduler cycle result handling is
in the Flask backend, which is not under src/.  Per the spec, a cycle either
succeeds, publishing the classifier direction (UP or DOWN) with its
confidence and rolling accuracy, or fails, in which case the symbol receives
the ERROR placeholder with zero confidence rather than no value. -/
inductive CycleOutcome where
  | succeeded (direction : String) (confidence : ℚ) (accuracy : ℚ)
  | failed
deriving DecidableEq

/-- Modelled from the spec: the Prediction a cycle publishes for its symbol.
A failed cycle publishes the ERROR-direction placeholder with confidence 0. -/
def publishedPrediction : CycleOutcome → Prediction
  | .succeeded dir c a => { prediction := dir, confidence := c, accuracy := a }
  | .failed => { prediction := "ERROR", confidence := 0, accuracy := 0 }

/-- Market sentiment block of the market-overview payload
(interface MarketData in MarketOverview.tsx). -/
structure MarketSentiment where
  bullish : ℚ
  bearish : ℚ
  neutral : ℚ
deriving DecidableEq

/-- Modelled from the spec: MarketAggregator.snapshot sentiment lives in the
backend, which is not under src/.  Per the spec, bullish and bearish are the
percentages of watch-list symbols whose percent-change clears the +0.5 and
-0.5 thresholds, and neutral is the complement so that the three percentages
sum to 100 regardless of watch-list size. -/
def bullishPct (changes : List ℚ) : ℚ :=
  if ((changes.length : ℚ)) = 0 then 0
  else 100 * ((changes.filter (fun c => decide (((1 : ℚ) / 2) < c))).length : ℚ) /
    (changes.length : ℚ)

/-- Modelled from the spec: the share of watch-list symbols whose
percent-change is below the -0.5 threshold, as a percentage. -/
def bearishPct (changes : List ℚ) : ℚ :=
  if ((changes.length : ℚ)) = 0 then 0
  else 100 * ((changes.filter (fun c => decide (c < -((1 : ℚ) / 2)))).length : ℚ) /
    (changes.length : ℚ)

/-- Modelled from the spec (continued): the sentiment snapshot itself, with
neutral as the complement of bullish and bearish. -/
def snapshotSentiment (changes : List ℚ) : MarketSentiment :=
  { bullish := bullishPct changes, bearish := bearishPct changes
    neutral := 100 - bullishPct changes - bearishPct changes }

section Helpers

/-- When the symbol is new and prediction data is loaded, handleAddStock
stores exactly the prediction built from the response and the random draw. -/
lemma newPredictionOf_eq (st : AppState) (pd : PredictionData) (d : NewStockData)
    (r : ℚ) (hpd : st.predictions = some pd)
    (hd : st.customStocks.contains d.symbol = false) :
    newPredictionOf st d r =
      some { prediction := d.direction, confidence := d.confidence / 100
             accuracy := r * (3 / 10) + 7 / 10 } := by
  have hmem : d.symbol ∉ st.customStocks := by simpa using hd
  unfold newPredictionOf handleAddStock
  rw [hpd]
  simp [hmem, recordGet, recordSet]

/-- The seeded fold by min lands on one of the candidates. -/
lemma foldl_min_mem (l : List ℚ) : ∀ a : ℚ, l.foldl min a ∈ a :: l := by
  induction l with
  | nil => intro a; simp
  | cons b bs ih =>
    intro a
    have h := ih (min a b)
    rcases List.mem_cons.mp h with h1 | h1
    · rcases min_choice a b with hc | hc
      · simp only [List.foldl_cons]
        rw [h1, hc]
        exact List.mem_cons_self _ _
      · simp only [List.foldl_cons]
        rw [h1, hc]
        exact List.mem_cons_of_mem _ (List.mem_cons_self _ _)
    · simp only [List.foldl_cons]
      exact List.mem_cons_of_mem _ (List.mem_cons_of_mem _ h1)

/-- The seeded fold by min is a lower bound for every candidate. -/
lemma foldl_min_le (l : List ℚ) : ∀ a x : ℚ, x ∈ a :: l → l.foldl min a ≤ x := by
  induction l with
  | nil =>
    intro a x hx
    simp only [List.mem_singleton] at hx
    simp [hx]
  | cons b bs ih =>
    intro a x hx
    simp only [List.foldl_cons]
    rcases List.mem_cons.mp hx with h1 | h1
    · have hle : bs.foldl min (min a b) ≤ min a b :=
        ih (min a b) (min a b) (List.mem_cons_self _ _)
      rw [h1]
      exact le_trans hle (min_le_left _ _)
    · rcases List.mem_cons.mp h1 with h2 | h2
      · have hle : bs.foldl min (min a b) ≤ min a b :=
          ih (min a b) (min a b) (List.mem_cons_self _ _)
        rw [h2]
        exact le_trans hle (min_le_right _ _)
      · exact ih (min a b) x (List.mem_cons_of_mem _ h2)

/-- The seeded fold by max lands on one of the candidates. -/
lemma foldl_max_mem (l : List ℚ) : ∀ a : ℚ, l.foldl max a ∈ a :: l := by
  induction l with
  | nil => intro a; simp
  | cons b bs ih =>
    intro a
    have h := ih (max a b)
    rcases List.mem_cons.mp h with h1 | h1
    · rcases max_choice a b with hc | hc
      · simp only [List.foldl_cons]
        rw [h1, hc]
        exact List.mem_cons_self _ _
      · simp only [List.foldl_cons]
        rw [h1, hc]
        exact List.mem_cons_of_mem _ (List.mem_cons_self _ _)
    · simp only [List.foldl_cons]
      exact List.mem_cons_of_mem _ (List.mem_cons_of_mem _ h1)

/-- The seeded fold by max is an upper bound for every candidate. -/
lemma le_foldl_max (l : List ℚ) : ∀ a x : ℚ, x ∈ a :: l → x ≤ l.foldl max a := by
  induction l with
  | nil =>
    intro a x hx
    simp only [List.mem_singleton] at hx
    simp [hx]
  | cons b bs ih =>
    intro a x hx
    simp only [List.foldl_cons]
    rcases List.mem_cons.mp hx with h1 | h1
    · have hle : max a b ≤ bs.foldl max (max a b) :=
        ih (max a b) (max a b) (List.mem_cons_self _ _)
      rw [h1]
      exact le_trans (le_max_left _ _) hle
    · rcases List.mem_cons.mp h1 with h2 | h2
      · have hle : max a b ≤ bs.foldl max (max a b) :=
          ih (max a b) (max a b) (List.mem_cons_self _ _)
        rw [h2]
        exact le_trans (le_max_right _ _) hle
      · exact ih (max a b) x (List.mem_cons_of_mem _ h2)

/-- Two pointwise-exclusive filters keep at most the whole list between them. -/
lemma filter_disjoint_length (p q : ℚ → Bool)
    (hpq : ∀ c, ¬(p c = true ∧ q c = true)) (l : List ℚ) :
    (l.filter p).length + (l.filter q).length ≤ l.length := by
  induction l with
  | nil => simp
  | cons c cs ih =>
    cases hp : p c with
    | true =>
      have hq : q c = false := by
        cases hq : q c with
        | true => exact absurd ⟨hp, hq⟩ (hpq c)
        | false => rfl
      simp only [List.filter_cons, hp, hq, List.length_cons]
      simp only [if_true, Bool.false_eq_true, if_false, List.length_cons]
      omega
    | false =>
      cases hq : q c with
      | true =>
        simp only [List.filter_cons, hp, hq, List.length_cons]
        simp only [if_true, Bool.false_eq_true, if_false, List.length_cons]
        omega
      | false =>
        simp only [List.filter_cons, hp, hq, List.length_cons]
        simp only [Bool.false_eq_true, if_false]
        omega

end Helpers

section ConcreteFixtures

/-- Empty prediction payload used by concrete instantiations. -/
def pdW1 : PredictionData :=
  { predictions := [], last_updated := "init", prediction_date := "today" }

/-- App state fresh after the first fetch, no custom stocks yet. -/
def stW1 : AppState := { customStocks := [], predictions := some pdW1 }

/-- App state where TSLA has already been added by the user. -/
def stTSLA : AppState := { customStocks := ["TSLA"], predictions := some pdW1 }

/-- A well-formed add-stock payload for TSLA. -/
def dTSLA : NewStockData :=
  { symbol := "TSLA", name := "Tesla Inc", currentPrice := 250, prediction := 1
    confidence := 55, direction := "UP" }

/-- A well-formed add-stock payload for META. -/
def dMETA : NewStockData :=
  { symbol := "META", name := "Meta Platforms Inc", currentPrice := 500
    prediction := 0, confidence := 80, direction := "DOWN" }

/-- An add-stock payload for the default symbol AAPL. -/
def dAAPL : NewStockData :=
  { symbol := "AAPL", name := "Apple Inc", currentPrice := 170, prediction := 1
    confidence := 60, direction := "UP" }

end ConcreteFixtures

/-- Claim C1: for every symbol with a published Prediction served to the
presentation layer, including symbols added at runtime via add-symbol, the
confidence lies in [0, 1] and the accuracy lies in [0, 1].  Predictions
already in the state satisfy the ranges; the add-stock response carries its
confidence as a percentage in [0, 100] and the Math.random draw lies in
[0, 1), and handleAddStock keeps every stored prediction inside both unit
ranges. -/
theorem addStock_preserves_prediction_ranges
    (st : AppState) (d : NewStockData) (r : ℚ)
    (hst : stateInRange st)
    (hc0 : 0 ≤ d.confidence) (hc1 : d.confidence ≤ 100)
    (hr0 : 0 ≤ r) (hr1 : r < 1) :
    stateInRange (handleAddStock st d r) := by
  intro pd hpd s p hmem
  unfold handleAddStock at hpd
  by_cases hcontains : st.customStocks.contains d.symbol = true
  · rw [if_pos hcontains] at hpd
    exact hst pd hpd s p hmem
  · rw [if_neg hcontains] at hpd
    cases hsp : st.predictions with
    | none =>
      rw [hsp] at hpd
      simp at hpd
    | some pd0 =>
      rw [hsp] at hpd
      simp [recordSet] at hpd
      rw [← hpd] at hmem
      simp only [List.mem_cons] at hmem
      rcases hmem with hhead | htail
      · have hp : p = { prediction := d.direction, confidence := d.confidence / 100
                        accuracy := r * (3 / 10) + 7 / 10 } := by
          exact congrArg Prod.snd hhead
        rw [hp]
        refine ⟨?_, ?_, ?_, ?_⟩
        · exact div_nonneg hc0 (by norm_num)
        · exact (div_le_one (by norm_num)).mpr hc1
        · have := mul_nonneg hr0 (by norm_num : (0 : ℚ) ≤ 3 / 10)
          simp only []
          linarith
        · have : r * (3 / 10) ≤ 1 * (3 / 10) :=
            mul_le_mul_of_nonneg_right (le_of_lt hr1) (by norm_num)
          simp only []
          linarith
      · exact hst pd0 hsp s p htail

/-- Witness for claim C1 at a concrete state, payload and random draw. -/
theorem addStock_preserves_prediction_ranges_witness :
    stateInRange (handleAddStock stW1 dTSLA (1 / 2)) := by
  refine addStock_preserves_prediction_ranges stW1 dTSLA (1 / 2) ?_ ?_ ?_ ?_ ?_
  · intro pd hpd s p hmem
    simp [stW1, pdW1] at hpd
    rw [← hpd] at hmem
    simp at hmem
  · norm_num [dTSLA]
  · norm_num [dTSLA]
  · norm_num
  · norm_num

/-- Claim C2 counterexample: AAPL is already in the registered list (it is a
default symbol), yet handleAddStock appends it to the custom list, so a
second registration duplicates it in allStocks and changes the list. -/
theorem register_default_symbol_duplicates :
    "AAPL" ∈ allStocks stW1 ∧
    (allStocks (handleAddStock stW1 dAAPL (1 / 2))).count "AAPL" = 2 ∧
    allStocks (handleAddStock stW1 dAAPL (1 / 2)) ≠ allStocks stW1 := by
  refine ⟨by decide, by decide, by decide⟩

/-- Claim C2 (amended): registering a symbol that is already in the custom
(user-added) list is idempotent: the entire state, and hence the combined
symbol list, is unchanged.  (A default symbol, by contrast, is duplicated:
see the counterexample.) -/
theorem register_custom_symbol_idempotent (st : AppState) (d : NewStockData)
    (r : ℚ) (h : d.symbol ∈ st.customStocks) :
    handleAddStock st d r = st ∧
    allStocks (handleAddStock st d r) = allStocks st := by
  have heq : handleAddStock st d r = st := by
    unfold handleAddStock
    simp [h]
  exact ⟨heq, by rw [heq]⟩

/-- Witness for the amended claim C2: re-adding the already-added TSLA. -/
theorem register_custom_symbol_idempotent_witness :
    handleAddStock stTSLA dTSLA 0 = stTSLA ∧
    allStocks (handleAddStock stTSLA dTSLA 0) = allStocks stTSLA :=
  register_custom_symbol_idempotent stTSLA dTSLA 0 (by decide)

/-- Claim C3: when the provider reports not-found for the submitted ticker,
the submission is rejected with the not-found message shown to the caller,
and the symbol list and the prediction map are left untouched. -/
theorem notFound_leaves_state_unchanged (st : AppState) (sym : String)
    (api : String → AddStockApiResult) (r : ℚ)
    (hne : jsTrim sym ≠ "")
    (hnf : api sym.toUpper = AddStockApiResult.httpNotFound) :
    submitAndAdd st sym api r =
      (st, some "Stock symbol not found. Please check the symbol and try again.") ∧
    allStocks (submitAndAdd st sym api r).1 = allStocks st ∧
    (submitAndAdd st sym api r).1.predictions = st.predictions := by
  have h1 : handleSubmit sym api =
      SubmitOutcome.rejected
        "Stock symbol not found. Please check the symbol and try again." := by
    unfold handleSubmit
    rw [if_neg hne, hnf]
  refine ⟨?_, ?_, ?_⟩ <;> simp [submitAndAdd, h1]

/-- Witness for claim C3: submitting ZZZZ against a provider that reports
not-found for everything. -/
theorem notFound_leaves_state_unchanged_witness :
    submitAndAdd stW1 "ZZZZ" (fun _ => AddStockApiResult.httpNotFound) 0 =
      (stW1, some "Stock symbol not found. Please check the symbol and try again.") ∧
    allStocks (submitAndAdd stW1 "ZZZZ" (fun _ => AddStockApiResult.httpNotFound) 0).1 =
      allStocks stW1 ∧
    (submitAndAdd stW1 "ZZZZ" (fun _ => AddStockApiResult.httpNotFound) 0).1.predictions =
      stW1.predictions :=
  notFound_leaves_state_unchanged stW1 "ZZZZ" (fun _ => AddStockApiResult.httpNotFound) 0
    (by decide) rfl

/-- Claim C4: every prediction the presentation layer handles has direction
UP, DOWN or ERROR; a failed cycle publishes the ERROR-direction placeholder
with confidence 0 rather than no value, and the ERROR placeholder (like a
missing prediction) still renders, as the question-mark icon. -/
theorem cycle_always_presentable (o : CycleOutcome)
    (h : ∀ dir c a, o = CycleOutcome.succeeded dir c a →
      dir = "UP" ∨ dir = "DOWN") :
    ((publishedPrediction o).prediction = "UP" ∨
      (publishedPrediction o).prediction = "DOWN" ∨
      (publishedPrediction o).prediction = "ERROR") ∧
    publishedPrediction CycleOutcome.failed =
      { prediction := "ERROR", confidence := 0, accuracy := 0 } ∧
    getPredictionIcon (some (publishedPrediction CycleOutcome.failed)) =
      PredictionIcon.questionMark ∧
    getPredictionIcon none = PredictionIcon.questionMark := by
  refine ⟨?_, rfl, by decide, rfl⟩
  cases o with
  | succeeded dir c a =>
    rcases h dir c a rfl with hdir | hdir <;> simp [publishedPrediction, hdir]
  | failed => simp [publishedPrediction]

/-- Witness for claim C4 at the failed cycle outcome. -/
theorem cycle_always_presentable_witness :
    ((publishedPrediction CycleOutcome.failed).prediction = "UP" ∨
      (publishedPrediction CycleOutcome.failed).prediction = "DOWN" ∨
      (publishedPrediction CycleOutcome.failed).prediction = "ERROR") ∧
    publishedPrediction CycleOutcome.failed =
      { prediction := "ERROR", confidence := 0, accuracy := 0 } ∧
    getPredictionIcon (some (publishedPrediction CycleOutcome.failed)) =
      PredictionIcon.questionMark ∧
    getPredictionIcon none = PredictionIcon.questionMark :=
  cycle_always_presentable CycleOutcome.failed
    (fun _ _ _ heq => CycleOutcome.noConfusion heq)

/-- Claim C5: under the spec response space of add-symbol (a success payload
or a not-found error), a submission either yields exactly the six-field
record {symbol, name, currentPrice, prediction, confidence, direction}
projected from the payload, or is rejected with the not-found message;
moreover any accepted submission whatsoever arises as that exact projection
of a success payload, so no other success shape is produced. -/
theorem addStock_result_shape (sym : String) (api : String → AddStockApiResult)
    (hne : jsTrim sym ≠ "")
    (hresp : (∃ p, api sym.toUpper = AddStockApiResult.ok p) ∨
      api sym.toUpper = AddStockApiResult.httpNotFound) :
    ((∃ p, api sym.toUpper = AddStockApiResult.ok p ∧
        handleSubmit sym api = SubmitOutcome.added
          { symbol := p.symbol, name := p.name, currentPrice := p.currentPrice
            prediction := p.prediction, confidence := p.confidence
            direction := p.direction }) ∨
      handleSubmit sym api =
        SubmitOutcome.rejected
          "Stock symbol not found. Please check the symbol and try again.") ∧
    (∀ d, handleSubmit sym api = SubmitOutcome.added d →
      ∃ p, api sym.toUpper = AddStockApiResult.ok p ∧
        d = { symbol := p.symbol, name := p.name, currentPrice := p.currentPrice
              prediction := p.prediction, confidence := p.confidence
              direction := p.direction }) := by
  constructor
  · rcases hresp with ⟨p, hp⟩ | hnf
    · left
      refine ⟨p, hp, ?_⟩
      unfold handleSubmit
      rw [if_neg hne, hp]
    · right
      unfold handleSubmit
      rw [if_neg hne, hnf]
  · intro d hd
    unfold handleSubmit at hd
    rw [if_neg hne] at hd
    cases hresp2 : api sym.toUpper with
    | ok p =>
      rw [hresp2] at hd
      cases hd
      exact ⟨p, rfl, rfl⟩
    | httpNotFound =>
      rw [hresp2] at hd
      cases hd
    | httpError m =>
      rw [hresp2] at hd
      cases m with
      | none => cases hd
      | some s => cases hd

/-- Witness for claim C5: a provider that accepts TSLA. -/
theorem addStock_result_shape_witness :
    ((∃ p, (fun _ => AddStockApiResult.ok dTSLA) "TSLA".toUpper =
          AddStockApiResult.ok p ∧
        handleSubmit "TSLA" (fun _ => AddStockApiResult.ok dTSLA) =
          SubmitOutcome.added
            { symbol := p.symbol, name := p.name, currentPrice := p.currentPrice
              prediction := p.prediction, confidence := p.confidence
              direction := p.direction }) ∨
      handleSubmit "TSLA" (fun _ => AddStockApiResult.ok dTSLA) =
        SubmitOutcome.rejected
          "Stock symbol not found. Please check the symbol and try again.") ∧
    (∀ d, handleSubmit "TSLA" (fun _ => AddStockApiResult.ok dTSLA) =
        SubmitOutcome.added d →
      ∃ p, (fun _ => AddStockApiResult.ok dTSLA) "TSLA".toUpper =
          AddStockApiResult.ok p ∧
        d = { symbol := p.symbol, name := p.name, currentPrice := p.currentPrice
              prediction := p.prediction, confidence := p.confidence
              direction := p.direction }) :=
  addStock_result_shape "TSLA" (fun _ => AddStockApiResult.ok dTSLA)
    (by decide) (Or.inl ⟨dTSLA, rfl⟩)

/-- Claim C6: the predictions-for-all-symbols payload is a mapping from
symbols to {direction, confidence, accuracy} records together with a
last-updated timestamp and the prediction date: the payload consists of
exactly those three parts, and every symbol listed in the mapping can be
looked up to a record made of exactly the three prediction components. -/
theorem predictionData_shape (pd : PredictionData) :
    pd = { predictions := pd.predictions, last_updated := pd.last_updated
           prediction_date := pd.prediction_date } ∧
    ∀ s p, (s, p) ∈ pd.predictions →
      recordGet pd.predictions s ≠ none ∧
      p = { prediction := p.prediction, confidence := p.confidence
            accuracy := p.accuracy } := by
  refine ⟨rfl, ?_⟩
  intro s p hmem
  refine ⟨?_, rfl⟩
  have hs : (pd.predictions.find? (fun e => e.1 == s)).isSome := by
    rw [List.find?_isSome]
    exact ⟨(s, p), hmem, by simp⟩
  rcases Option.isSome_iff_exists.mp hs with ⟨e, he⟩
  simp [recordGet, he]

/-- A concrete prediction entry for the C6 witness. -/
def pAAPL : Prediction :=
  { prediction := "UP", confidence := 1 / 2, accuracy := 3 / 4 }

/-- A concrete one-entry predictions payload for the C6 witness. -/
def pdAAPL : PredictionData :=
  { predictions := [("AAPL", pAAPL)], last_updated := "now"
    prediction_date := "today" }

/-- Witness for claim C6 at a one-entry payload. -/
theorem predictionData_shape_witness :
    recordGet pdAAPL.predictions "AAPL" ≠ none :=
  ((predictionData_shape pdAAPL).2 "AAPL" pAAPL
    (List.mem_singleton.mpr rfl)).1

/-- The bullish percentage is non-negative. -/
lemma bullishPct_nonneg (changes : List ℚ) : 0 ≤ bullishPct changes := by
  unfold bullishPct
  by_cases hn : ((changes.length : ℚ)) = 0
  · rw [if_pos hn]
  · rw [if_neg hn]
    have hn' : (0 : ℚ) < changes.length :=
      lt_of_le_of_ne (Nat.cast_nonneg _) (Ne.symm hn)
    exact div_nonneg (mul_nonneg (by norm_num) (Nat.cast_nonneg _)) hn'.le

/-- The bearish percentage is non-negative. -/
lemma bearishPct_nonneg (changes : List ℚ) : 0 ≤ bearishPct changes := by
  unfold bearishPct
  by_cases hn : ((changes.length : ℚ)) = 0
  · rw [if_pos hn]
  · rw [if_neg hn]
    have hn' : (0 : ℚ) < changes.length :=
      lt_of_le_of_ne (Nat.cast_nonneg _) (Ne.symm hn)
    exact div_nonneg (mul_nonneg (by norm_num) (Nat.cast_nonneg _)) hn'.le

/-- The bullish percentage is at most 100. -/
lemma bullishPct_le_100 (changes : List ℚ) : bullishPct changes ≤ 100 := by
  unfold bullishPct
  by_cases hn : ((changes.length : ℚ)) = 0
  · rw [if_pos hn]; norm_num
  · rw [if_neg hn]
    have hn' : (0 : ℚ) < changes.length :=
      lt_of_le_of_ne (Nat.cast_nonneg _) (Ne.symm hn)
    rw [div_le_iff₀ hn']
    have hle : ((changes.filter (fun c => decide (((1 : ℚ) / 2) < c))).length : ℚ) ≤
        (changes.length : ℚ) := by
      exact_mod_cast List.length_filter_le _ _
    nlinarith

/-- The bearish percentage is at most 100. -/
lemma bearishPct_le_100 (changes : List ℚ) : bearishPct changes ≤ 100 := by
  unfold bearishPct
  by_cases hn : ((changes.length : ℚ)) = 0
  · rw [if_pos hn]; norm_num
  · rw [if_neg hn]
    have hn' : (0 : ℚ) < changes.length :=
      lt_of_le_of_ne (Nat.cast_nonneg _) (Ne.symm hn)
    rw [div_le_iff₀ hn']
    have hle : ((changes.filter (fun c => decide (c < -((1 : ℚ) / 2)))).length : ℚ) ≤
        (changes.length : ℚ) := by
      exact_mod_cast List.length_filter_le _ _
    nlinarith

/-- No percent-change is simultaneously above +0.5 and below -0.5, so the
two sentiment counts together never exceed the watch-list size. -/
lemma sentiment_counts_le (changes : List ℚ) :
    ((changes.filter (fun c => decide (((1 : ℚ) / 2) < c))).length : ℚ) +
      ((changes.filter (fun c => decide (c < -((1 : ℚ) / 2)))).length : ℚ) ≤
      (changes.length : ℚ) := by
  have h := filter_disjoint_length (fun c => decide (((1 : ℚ) / 2) < c))
    (fun c => decide (c < -((1 : ℚ) / 2)))
    (by
      intro c hc
      rcases hc with ⟨h1, h2⟩
      simp only [decide_eq_true_eq] at h1 h2
      linarith) changes
  exact_mod_cast h

/-- Bullish plus bearish never exceeds 100 percent. -/
lemma bullish_add_bearish_le_100 (changes : List ℚ) :
    bullishPct changes + bearishPct changes ≤ 100 := by
  unfold bullishPct bearishPct
  by_cases hn : ((changes.length : ℚ)) = 0
  · rw [if_pos hn, if_pos hn]; norm_num
  · rw [if_neg hn, if_neg hn]
    have hn' : (0 : ℚ) < changes.length :=
      lt_of_le_of_ne (Nat.cast_nonneg _) (Ne.symm hn)
    rw [div_add_div_same, div_le_iff₀ hn']
    have h := sentiment_counts_le changes
    nlinarith

/-- Claim C7: for every market-overview snapshot, whatever the size of the
watch-list, the sentiment percentages are genuine percentages and bullish +
bearish + neutral sums to exactly 100. -/
theorem sentiment_sums_to_100 (changes : List ℚ) :
    (snapshotSentiment changes).bullish + (snapshotSentiment changes).bearish +
        (snapshotSentiment changes).neutral = 100 ∧
    0 ≤ (snapshotSentiment changes).bullish ∧
    0 ≤ (snapshotSentiment changes).bearish ∧
    0 ≤ (snapshotSentiment changes).neutral ∧
    (snapshotSentiment changes).bullish ≤ 100 ∧
    (snapshotSentiment changes).bearish ≤ 100 ∧
    (snapshotSentiment changes).neutral ≤ 100 := by
  have h1 := bullishPct_nonneg changes
  have h2 := bearishPct_nonneg changes
  have h3 := bullishPct_le_100 changes
  have h4 := bearishPct_le_100 changes
  have h5 := bullish_add_bearish_le_100 changes
  unfold snapshotSentiment
  dsimp only
  exact ⟨by ring, h1, h2, by linarith, h3, h4, by linarith⟩

/-- Claim C8: the accuracy handleAddStock stores for a newly accepted symbol
is r * 0.3 + 0.7 for the Math.random draw r, hence in [0.7, 1); it is a
function of the draw alone, identical across different response payloads at
the same draw, and two calls with identical response data but different
draws store different accuracies. -/
theorem addStock_accuracy_random (st : AppState) (pd : PredictionData)
    (d d2 : NewStockData) (r : ℚ)
    (hpd : st.predictions = some pd)
    (hd : st.customStocks.contains d.symbol = false)
    (hd2 : st.customStocks.contains d2.symbol = false)
    (hr0 : 0 ≤ r) (hr1 : r < 1) :
    (∀ p, newPredictionOf st d r = some p →
        7 / 10 ≤ p.accuracy ∧ p.accuracy < 1 ∧
        p.accuracy = r * (3 / 10) + 7 / 10) ∧
    (∀ p q, newPredictionOf st d r = some p →
        newPredictionOf st d2 r = some q → p.accuracy = q.accuracy) ∧
    (∀ p q, newPredictionOf st d 0 = some p →
        newPredictionOf st d (1 / 2) = some q → p.accuracy ≠ q.accuracy) := by
  have he := newPredictionOf_eq st pd d r hpd hd
  have he2 := newPredictionOf_eq st pd d2 r hpd hd2
  have he0 := newPredictionOf_eq st pd d 0 hpd hd
  have heh := newPredictionOf_eq st pd d (1 / 2) hpd hd
  refine ⟨?_, ?_, ?_⟩
  · intro p hp
    rw [he] at hp
    cases hp
    have hlow : 0 ≤ r * (3 / 10) := mul_nonneg hr0 (by norm_num)
    have hhigh : r * (3 / 10) < 1 * (3 / 10) :=
      mul_lt_mul_of_pos_right hr1 (by norm_num)
    exact ⟨by simpa using by linarith, by simpa using by linarith, rfl⟩
  · intro p q hp hq
    rw [he] at hp
    rw [he2] at hq
    cases hp
    cases hq
    rfl
  · intro p q hp hq
    rw [he0] at hp
    rw [heh] at hq
    cases hp
    cases hq
    norm_num

/-- Witness for claim C8 with two different payloads and the draw 1/2. -/
theorem addStock_accuracy_random_witness :
    (∀ p, newPredictionOf stW1 dTSLA (1 / 2) = some p →
        7 / 10 ≤ p.accuracy ∧ p.accuracy < 1 ∧
        p.accuracy = (1 / 2) * (3 / 10) + 7 / 10) ∧
    (∀ p q, newPredictionOf stW1 dTSLA (1 / 2) = some p →
        newPredictionOf stW1 dMETA (1 / 2) = some q →
        p.accuracy = q.accuracy) ∧
    (∀ p q, newPredictionOf stW1 dTSLA 0 = some p →
        newPredictionOf stW1 dTSLA (1 / 2) = some q →
        p.accuracy ≠ q.accuracy) :=
  addStock_accuracy_random stW1 pdW1 dTSLA dMETA (1 / 2) rfl rfl rfl
    (by norm_num) (by norm_num)

/-- Claim C9: the confidence handleAddStock stores for a newly accepted
symbol is exactly the response confidence divided by 100, and handleSubmit
passes the confidence field of the server payload through unchanged. -/
theorem addStock_confidence_percent (st : AppState) (pd : PredictionData)
    (d : NewStockData) (r : ℚ)
    (hpd : st.predictions = some pd)
    (hd : st.customStocks.contains d.symbol = false) :
    (newPredictionOf st d r).map Prediction.confidence =
      some (d.confidence / 100) ∧
    (∀ sym api p d2, jsTrim sym ≠ "" →
        api sym.toUpper = AddStockApiResult.ok p →
        handleSubmit sym api = SubmitOutcome.added d2 →
        d2.confidence = p.confidence) := by
  constructor
  · rw [newPredictionOf_eq st pd d r hpd hd]
    rfl
  · intro sym api p d2 hne hok hsub
    unfold handleSubmit at hsub
    rw [if_neg hne, hok] at hsub
    cases hsub
    rfl

/-- Witness for claim C9 at a concrete payload. -/
theorem addStock_confidence_percent_witness :
    (newPredictionOf stW1 dTSLA 0).map Prediction.confidence =
      some (dTSLA.confidence / 100) ∧
    (∀ sym api p d2, jsTrim sym ≠ "" →
        api sym.toUpper = AddStockApiResult.ok p →
        handleSubmit sym api = SubmitOutcome.added d2 →
        d2.confidence = p.confidence) :=
  addStock_confidence_percent stW1 pdW1 dTSLA 0 rfl rfl

/-- Claim C10: getChartDomain is total and safe: the empty series maps to
[0, 0] without ever taking a min or max of nothing, and a non-empty series
maps to [min - 0.1 * (max - min), max + 0.1 * (max - min)] where min and max
really are the least and greatest prices of the series. -/
theorem getChartDomain_total_and_padded :
    getChartDomain [] = (0, 0) ∧
    ∀ (p : StockData) (ps : List StockData),
      minOfPrices p.price (ps.map (fun d => d.price)) ∈
        (p :: ps).map (fun d => d.price) ∧
      maxOfPrices p.price (ps.map (fun d => d.price)) ∈
        (p :: ps).map (fun d => d.price) ∧
      (∀ x ∈ (p :: ps).map (fun d => d.price),
        minOfPrices p.price (ps.map (fun d => d.price)) ≤ x ∧
        x ≤ maxOfPrices p.price (ps.map (fun d => d.price))) ∧
      getChartDomain (p :: ps) =
        (minOfPrices p.price (ps.map (fun d => d.price)) -
          (maxOfPrices p.price (ps.map (fun d => d.price)) -
            minOfPrices p.price (ps.map (fun d => d.price))) * (1 / 10),
         maxOfPrices p.price (ps.map (fun d => d.price)) +
          (maxOfPrices p.price (ps.map (fun d => d.price)) -
            minOfPrices p.price (ps.map (fun d => d.price))) * (1 / 10)) := by
  refine ⟨rfl, ?_⟩
  intro p ps
  refine ⟨?_, ?_, ?_, rfl⟩
  · exact foldl_min_mem _ _
  · exact foldl_max_mem _ _
  · intro x hx
    exact ⟨foldl_min_le _ _ x hx, le_foldl_max _ _ x hx⟩

/-- A concrete chart point at price 10 for the C10 witness. -/
def sdA : StockData := { timestamp := 0, price := 10 }

/-- A concrete chart point at price 20 for the C10 witness. -/
def sdB : StockData := { timestamp := 60000, price := 20 }

/-- Witness for claim C10 on the empty series and a two-point series. -/
theorem getChartDomain_total_and_padded_witness :
    getChartDomain [] = (0, 0) ∧ getChartDomain [sdA, sdB] = (9, 21) := by
  refine ⟨getChartDomain_total_and_padded.1, ?_⟩
  have h := (getChartDomain_total_and_padded.2 sdA [sdB]).2.2.2
  rw [h]
  norm_num [minOfPrices, maxOfPrices, sdA, sdB, min_def, max_def]
